import Mathlib

/-!
Shallow embedding of the core logic of the Aplikasi-Auditing-Piutang
repository (AuditGuard): the compliance checker `checkCoaCompliance`,
the aging/allowance engine `calculateAllowance`, and the CSV ingestion
pipeline (`parseCSVLine`, `parseCSVData`, header-based type detection of
`handleFileUpload`).

Modelling conventions:
- JS numbers carrying monetary amounts and rates are modelled as `Rat`
  (exact arithmetic standing in for IEEE doubles).
- ISO date strings such as "2024-07-01" are parsed by JS `new Date` to a
  midnight-UTC instant; we model a parsed date as a calendar triple and
  `getTime` as milliseconds since the Unix epoch (proleptic Gregorian).
- JS strings manipulated character by character are modelled as `List Char`.
- The JS `Set` of account ids is modelled by the id list with membership
  testing, which is extensionally the only operation used.
-/

namespace Audit

attribute [local semireducible] Rat.add Rat.mul Rat.sub Rat.inv Rat.ofScientific

/-- Calendar date (year, month, day), standing for a JS `Date` parsed from an
ISO `YYYY-MM-DD` string (midnight UTC, no time-of-day component). -/
structure Date where
  y : Nat
  m : Nat
  d : Nat
deriving DecidableEq, Repr

/-- Gregorian leap-year test. -/
def isLeap (y : Nat) : Bool :=
  (y % 4 == 0 && y % 100 != 0) || (y % 400 == 0)

/-- Days in the months strictly before month `m` of a year (leap-aware). -/
def daysBeforeMonth (leap : Bool) (m : Nat) : Nat :=
  let base :=
    match m with
    | 1 => 0 | 2 => 31 | 3 => 59 | 4 => 90 | 5 => 120 | 6 => 151
    | 7 => 181 | 8 => 212 | 9 => 243 | 10 => 273 | 11 => 304 | _ => 334
  if leap && m ≥ 3 then base + 1 else base

/-- Rata-die day number of a date (0001-01-01 has number 1), proleptic
Gregorian calendar. -/
def toRataDie (dt : Date) : Nat :=
  365 * (dt.y - 1) + (dt.y - 1) / 4 - (dt.y - 1) / 100 + (dt.y - 1) / 400
    + daysBeforeMonth (isLeap dt.y) dt.m + dt.d

/-- JS `Date.getTime()`: milliseconds since 1970-01-01T00:00Z.  Rata die of
1970-01-01 is 719163. -/
def getTime (dt : Date) : Int :=
  ((toRataDie dt : Int) - 719163) * 86400000

/-- Ceiling division for integers (divisor positive), the semantics of
JS `Math.ceil(a / b)` on exact integer input. -/
def ceilDiv (a b : Int) : Int :=
  -(Int.fdiv (-a) b)

/-- Account type union from types.ts. -/
inductive AccountType
  | Asset | Liability | Equity | Revenue | Expense
deriving DecidableEq, Repr

/-- Account record from types.ts. -/
structure Account where
  account_id : String
  account_name : String
  account_type : AccountType
deriving DecidableEq, Repr

/-- Invoice status union from types.ts. -/
inductive InvoiceStatus
  | Open | Paid | Void
deriving DecidableEq, Repr

/-- Invoice record from types.ts (dates held in parsed form, amounts as `Rat`). -/
structure Invoice where
  invoice_id : String
  customer_id : String
  invoice_date : Date
  due_date : Date
  original_amount : Rat
  amount_paid : Rat
  balance_due : Rat
  status : InvoiceStatus
deriving DecidableEq, Repr

/-- Transaction record from types.ts. -/
structure Transaction where
  transaction_id : String
  transaction_date : String
  debit_account_id : String
  credit_account_id : String
  amount : Rat
  reference_invoice_id : Option String
  description : String
deriving DecidableEq, Repr

/-- Compliance issue type union from types.ts ('Invalid Debit Account',
'Invalid Credit Account', 'Data Integrity'). -/
inductive IssueType
  | InvalidDebitAccount | InvalidCreditAccount | DataIntegrity
deriving DecidableEq, Repr

/-- Severity union from types.ts. -/
inductive Severity
  | High | Medium | Low
deriving DecidableEq, Repr

/-- Compliance issue record from types.ts. -/
structure ComplianceIssue where
  transaction_id : String
  issue_type : IssueType
  description : String
  severity : Severity
deriving DecidableEq, Repr

/-- Aging bucket record from types.ts. -/
structure AgingBucket where
  bucket : String
  total_amount : Rat
  invoice_count : Nat
  allowance_rate : Rat
  estimated_allowance : Rat
deriving DecidableEq, Repr

/-- The issue pushed for a transaction whose debit account id is absent
from the chart of accounts (App.tsx, checkCoaCompliance). -/
def debitIssue (txn : Transaction) : ComplianceIssue :=
  { transaction_id := txn.transaction_id
    issue_type := .InvalidDebitAccount
    description := "Debit Account ID " ++ txn.debit_account_id ++ " not found in COA."
    severity := .High }

/-- The issue pushed for a transaction whose credit account id is absent
from the chart of accounts (App.tsx, checkCoaCompliance). -/
def creditIssue (txn : Transaction) : ComplianceIssue :=
  { transaction_id := txn.transaction_id
    issue_type := .InvalidCreditAccount
    description := "Credit Account ID " ++ txn.credit_account_id ++ " not found in COA."
    severity := .High }

/-- The body of the transactions.forEach loop of checkCoaCompliance: push an
Invalid Debit Account issue when the debit id is missing, then an Invalid
Credit Account issue when the credit id is missing. -/
def complianceStep (accountIds : List String) (issues : List ComplianceIssue)
    (txn : Transaction) : List ComplianceIssue :=
  let issues1 :=
    if accountIds.contains txn.debit_account_id then issues
    else issues ++ [debitIssue txn]
  if accountIds.contains txn.credit_account_id then issues1
  else issues1 ++ [creditIssue txn]

/-- App.tsx checkCoaCompliance: build the set of account ids, then for each
transaction in order push an Invalid Debit Account issue when the debit id is
missing and an Invalid Credit Account issue when the credit id is missing. -/
def checkCoaCompliance (transactions : List Transaction) (coa : List Account) :
    List ComplianceIssue :=
  transactions.foldl (complianceStep (coa.map (fun a => a.account_id))) []

/-- The two-sided issue list a single transaction contributes, in push order. -/
def issuesFor (accountIds : List String) (txn : Transaction) : List ComplianceIssue :=
  (if accountIds.contains txn.debit_account_id then [] else [debitIssue txn]) ++
  (if accountIds.contains txn.credit_account_id then [] else [creditIssue txn])

/-- The five zero-initialised buckets of App.tsx calculateAllowance, in source
order with source labels and rates. -/
def initBuckets : List AgingBucket :=
  [ { bucket := "Current", total_amount := 0, invoice_count := 0,
      allowance_rate := 0.01, estimated_allowance := 0 },
    { bucket := "1-30 Days", total_amount := 0, invoice_count := 0,
      allowance_rate := 0.05, estimated_allowance := 0 },
    { bucket := "31-60 Days", total_amount := 0, invoice_count := 0,
      allowance_rate := 0.10, estimated_allowance := 0 },
    { bucket := "61-90 Days", total_amount := 0, invoice_count := 0,
      allowance_rate := 0.25, estimated_allowance := 0 },
    { bucket := "90+ Days", total_amount := 0, invoice_count := 0,
      allowance_rate := 0.50, estimated_allowance := 0 } ]

/-- diffDays of App.tsx calculateAllowance:
Math.ceil((REF_DATE.getTime() - dueDate.getTime()) / 86400000). -/
def diffDaysOf (ref due : Date) : Int :=
  ceilDiv (getTime ref - getTime due) 86400000

/-- The bucket index chosen by the if-chain of calculateAllowance. -/
def bucketIndexOf (diffDays : Int) : Nat :=
  if diffDays ≤ 0 then 0
  else if diffDays ≤ 30 then 1
  else if diffDays ≤ 60 then 2
  else if diffDays ≤ 90 then 3
  else 4

/-- Replace the element at an index by applying a function (the in-place
mutation of buckets[bucketIndex] in the source loop). -/
def updateAt : List α → Nat → (α → α) → List α
  | [], _, _ => []
  | b :: bs, 0, f => f b :: bs
  | b :: bs, n + 1, f => b :: updateAt bs n f

/-- One iteration of the invoices.forEach loop of calculateAllowance: skip
nonpositive balances, otherwise add the balance and bump the count of the
bucket selected by the age if-chain. -/
def agingStep (ref : Date) (bs : List AgingBucket) (inv : Invoice) : List AgingBucket :=
  if inv.balance_due ≤ 0 then bs
  else
    updateAt bs (bucketIndexOf (diffDaysOf ref inv.due_date))
      (fun b => { b with
        total_amount := b.total_amount + inv.balance_due,
        invoice_count := b.invoice_count + 1 })

/-- The final buckets.forEach pass of calculateAllowance:
b.estimated_allowance = b.total_amount * b.allowance_rate. -/
def applyAllowance (b : AgingBucket) : AgingBucket :=
  { b with estimated_allowance := b.total_amount * b.allowance_rate }

/-- App.tsx calculateAllowance: accumulate every positive-balance invoice into
the bucket selected by its whole-day age, then compute each bucket's allowance
in a final pass over the accumulated totals. -/
def calculateAllowance (invoices : List Invoice) (referenceDate : Date) :
    List AgingBucket :=
  (invoices.foldl (agingStep referenceDate) initBuckets).map applyAllowance

/-- The default reference date '2024-07-01' of App.tsx. -/
def defaultReferenceDate : Date := ⟨2024, 7, 1⟩

/-- A throwaway bucket used as the default of List.getD. -/
def dummyBucket : AgingBucket :=
  { bucket := "", total_amount := 0, invoice_count := 0,
    allowance_rate := 0, estimated_allowance := 0 }

/-- The invoices the loop routes to bucket i: positive balance and the
age if-chain selecting index i. -/
def inBucket (ref : Date) (i : Nat) (inv : Invoice) : Bool :=
  decide (0 < inv.balance_due) && (bucketIndexOf (diffDaysOf ref inv.due_date) == i)

/-- Aggregate a batch of invoices onto one bucket: add their balances to the
total and their number to the count. -/
def addAgg (b : AgingBucket) (l : List Invoice) : AgingBucket :=
  { b with
    total_amount := b.total_amount + (l.map (fun inv => inv.balance_due)).sum,
    invoice_count := b.invoice_count + l.length }

lemma length_updateAt (bs : List α) (j : Nat) (f : α → α) :
    (updateAt bs j f).length = bs.length := by
  induction bs generalizing j with
  | nil => rfl
  | cons b bs ih =>
    cases j with
    | zero => rfl
    | succ n => simpa [updateAt] using ih n

lemma getD_updateAt_ne (bs : List α) (i j : Nat) (f : α → α) (d : α) (h : i ≠ j) :
    (updateAt bs j f).getD i d = bs.getD i d := by
  induction bs generalizing i j with
  | nil => rfl
  | cons b bs ih =>
    cases j with
    | zero =>
      cases i with
      | zero => exact absurd rfl h
      | succ k => simp [updateAt]
    | succ n =>
      cases i with
      | zero => simp [updateAt]
      | succ k =>
        simp only [updateAt, List.getD_cons_succ]
        exact ih k n (fun hk => h (by omega))

lemma getD_updateAt_eq (bs : List α) (j : Nat) (f : α → α) (d : α) (h : j < bs.length) :
    (updateAt bs j f).getD j d = f (bs.getD j d) := by
  induction bs generalizing j with
  | nil => simp at h
  | cons b bs ih =>
    cases j with
    | zero => rfl
    | succ n =>
      simp only [updateAt, List.getD_cons_succ]
      exact ih n (by simpa using h)

lemma map_updateAt (bs : List α) (j : Nat) (f : α → α) (g : α → β)
    (hf : ∀ b, g (f b) = g b) : (updateAt bs j f).map g = bs.map g := by
  induction bs generalizing j with
  | nil => rfl
  | cons b bs ih =>
    cases j with
    | zero => simp [updateAt, hf]
    | succ n => simp [updateAt, ih n]

lemma getD_map_lt (l : List α) (f : α → β) (i : Nat) (d : α) (dβ : β)
    (h : i < l.length) : (l.map f).getD i dβ = f (l.getD i d) := by
  induction l generalizing i with
  | nil => simp at h
  | cons a l ih =>
    cases i with
    | zero => rfl
    | succ k =>
      simp only [List.map_cons, List.getD_cons_succ]
      exact ih k (by simpa using h)

lemma bucketIndexOf_lt_five (a : Int) : bucketIndexOf a < 5 := by
  unfold bucketIndexOf
  split_ifs <;> omega

lemma length_agingStep (ref : Date) (bs : List AgingBucket) (inv : Invoice) :
    (agingStep ref bs inv).length = bs.length := by
  unfold agingStep
  split_ifs with h
  · rfl
  · exact length_updateAt ..

lemma length_foldl_agingStep (ref : Date) (invs : List Invoice)
    (bs : List AgingBucket) :
    (invs.foldl (agingStep ref) bs).length = bs.length := by
  induction invs generalizing bs with
  | nil => rfl
  | cons inv invs ih =>
    simp only [List.foldl_cons]
    rw [ih, length_agingStep]

lemma addAgg_nil (b : AgingBucket) : addAgg b [] = b := by
  simp [addAgg]

lemma addAgg_bump (b : AgingBucket) (inv : Invoice) (l : List Invoice) :
    addAgg { b with
        total_amount := b.total_amount + inv.balance_due,
        invoice_count := b.invoice_count + 1 } l = addAgg b (inv :: l) := by
  simp only [addAgg, List.map_cons, List.sum_cons, List.length_cons]
  refine AgingBucket.mk.injEq .. ▸ ?_
  exact ⟨rfl, by ring, by omega, rfl, rfl⟩

/-- Closed form of the accumulation loop of calculateAllowance: what ends up
at index i is the start bucket plus the aggregate of the invoices of class i. -/
lemma foldl_agingStep_getD (ref : Date) (invs : List Invoice)
    (bs : List AgingBucket) (hlen : bs.length = 5) (i : Nat) (hi : i < 5) :
    (invs.foldl (agingStep ref) bs).getD i dummyBucket =
      addAgg (bs.getD i dummyBucket) (invs.filter (inBucket ref i)) := by
  induction invs generalizing bs with
  | nil => simp [addAgg_nil]
  | cons inv invs ih =>
    simp only [List.foldl_cons]
    rw [ih (agingStep ref bs inv) (by rw [length_agingStep]; exact hlen)]
    by_cases hbal : inv.balance_due ≤ 0
    · have hcls : inBucket ref i inv = false := by
        simp [inBucket, not_lt.mpr hbal]
      rw [List.filter_cons_of_neg (by simp [hcls])]
      unfold agingStep
      rw [if_pos hbal]
    · have hpos : 0 < inv.balance_due := lt_of_not_ge hbal
      have hstep : agingStep ref bs inv =
          updateAt bs (bucketIndexOf (diffDaysOf ref inv.due_date))
            (fun b => { b with
              total_amount := b.total_amount + inv.balance_due,
              invoice_count := b.invoice_count + 1 }) := by
        unfold agingStep
        rw [if_neg hbal]
      by_cases hij : bucketIndexOf (diffDaysOf ref inv.due_date) = i
      · have hcls : inBucket ref i inv = true := by
          simp [inBucket, hpos, hij]
        rw [List.filter_cons_of_pos (by simp [hcls])]
        rw [hstep, hij, getD_updateAt_eq _ _ _ _ (by rw [hlen]; exact hi)]
        exact addAgg_bump ..
      · have hcls : inBucket ref i inv = false := by
          simp [inBucket, hij]
        rw [List.filter_cons_of_neg (by simp [hcls])]
        rw [hstep, getD_updateAt_ne _ _ _ _ _ (fun h => hij h.symm)]

/-- The accumulation loop never touches a bucket's label or rate. -/
lemma foldl_agingStep_map (ref : Date) (invs : List Invoice)
    (bs : List AgingBucket) (g : AgingBucket → β)
    (hg : ∀ (b : AgingBucket) (t : Rat) (c : Nat),
      g { b with total_amount := t, invoice_count := c } = g b) :
    ((invs.foldl (agingStep ref) bs).map g) = bs.map g := by
  induction invs generalizing bs with
  | nil => rfl
  | cons inv invs ih =>
    simp only [List.foldl_cons]
    rw [ih]
    unfold agingStep
    split_ifs with h
    · rfl
    · exact map_updateAt _ _ _ _ (fun b => hg b _ _)

/-- Closed form of the whole of calculateAllowance at one bucket index. -/
lemma calculateAllowance_getD (invs : List Invoice) (ref : Date) (i : Nat)
    (hi : i < 5) :
    (calculateAllowance invs ref).getD i dummyBucket =
      applyAllowance (addAgg (initBuckets.getD i dummyBucket)
        (invs.filter (inBucket ref i))) := by
  unfold calculateAllowance
  rw [getD_map_lt _ _ _ dummyBucket _
    (by rw [length_foldl_agingStep]; simpa [initBuckets] using hi)]
  rw [foldl_agingStep_getD ref invs initBuckets (by rfl) i hi]

/-- The final allowance pass does not disturb any projection it leaves alone. -/
lemma map_map_applyAllowance (l : List AgingBucket) (g : AgingBucket → β)
    (hg : ∀ b, g (applyAllowance b) = g b) :
    (l.map applyAllowance).map g = l.map g := by
  induction l with
  | nil => rfl
  | cons b l ih => simp [ih, hg]

/-- Every initial bucket (and the getD default) starts with count zero. -/
lemma initBuckets_getD_count (i : Nat) :
    (initBuckets.getD i dummyBucket).invoice_count = 0 := by
  rcases i with _ | _ | _ | _ | _ | i <;> rfl

/-- An overdue sample invoice due 2024-03-31 with positive balance. -/
def sampleOverdueInvoice : Invoice :=
  { invoice_id := "INV-0850", customer_id := "CUST-002",
    invoice_date := ⟨2024, 3, 1⟩, due_date := ⟨2024, 3, 31⟩,
    original_amount := 8500, amount_paid := 0, balance_due := 8500,
    status := .Open }

/-- A sample invoice due 2024-05-31 with balance_due 5000. -/
def sampleMidInvoice : Invoice :=
  { invoice_id := "INV-1001", customer_id := "CUST-001",
    invoice_date := ⟨2024, 5, 1⟩, due_date := ⟨2024, 5, 31⟩,
    original_amount := 5000, amount_paid := 0, balance_due := 5000,
    status := .Open }

/-- A fully paid sample invoice (balance_due = 0). -/
def samplePaidInvoice : Invoice :=
  { invoice_id := "INV-0800", customer_id := "CUST-003",
    invoice_date := ⟨2024, 1, 15⟩, due_date := ⟨2024, 2, 15⟩,
    original_amount := 3000, amount_paid := 3000, balance_due := 0,
    status := .Paid }

/-- C1: for every invoice list and reference date, calculateAllowance returns
exactly 5 buckets in the fixed order [Current, 1-30 Days, 31-60 Days,
61-90 Days, 90+ Days]; every invoice with balance_due > 0 is counted in
exactly one bucket, determined solely by its whole-day age
ceil((referenceDate - due_date) / 1 day); invoices with nonpositive balance
are counted nowhere; and the age-to-bucket assignment is: age ≤ 0 → Current,
1-30 → index 1, 31-60 → index 2, 61-90 → index 3, over 90 → index 4. -/
theorem aging_bucket_partition (invs : List Invoice) (ref : Date) :
    (calculateAllowance invs ref).length = 5 ∧
    (calculateAllowance invs ref).map (fun b => b.bucket) =
      ["Current", "1-30 Days", "31-60 Days", "61-90 Days", "90+ Days"] ∧
    (∀ due : Date,
      diffDaysOf ref due = ceilDiv (getTime ref - getTime due) 86400000) ∧
    (∀ i, i < 5 →
      ((calculateAllowance invs ref).getD i dummyBucket).invoice_count =
        (invs.filter (inBucket ref i)).length) ∧
    (∀ inv : Invoice, 0 < inv.balance_due → ∀ i,
      (inBucket ref i inv = true ↔
        i = bucketIndexOf (diffDaysOf ref inv.due_date))) ∧
    (∀ inv : Invoice, inv.balance_due ≤ 0 → ∀ i, inBucket ref i inv = false) ∧
    (∀ a : Int, bucketIndexOf a < 5 ∧
      (bucketIndexOf a = 0 ↔ a ≤ 0) ∧
      (bucketIndexOf a = 1 ↔ 1 ≤ a ∧ a ≤ 30) ∧
      (bucketIndexOf a = 2 ↔ 31 ≤ a ∧ a ≤ 60) ∧
      (bucketIndexOf a = 3 ↔ 61 ≤ a ∧ a ≤ 90) ∧
      (bucketIndexOf a = 4 ↔ 90 < a)) := by
  refine ⟨?_, ?_, fun due => rfl, ?_, ?_, ?_, ?_⟩
  · simp [calculateAllowance, length_foldl_agingStep, initBuckets]
  · unfold calculateAllowance
    rw [map_map_applyAllowance (invs.foldl (agingStep ref) initBuckets)
        (fun (b : AgingBucket) => b.bucket) (fun b => rfl),
      foldl_agingStep_map ref invs initBuckets
        (fun (b : AgingBucket) => b.bucket) (fun b t c => rfl)]
    rfl
  · intro i hi
    rw [calculateAllowance_getD _ _ _ hi]
    show (initBuckets.getD i dummyBucket).invoice_count +
        (invs.filter (inBucket ref i)).length =
      (invs.filter (inBucket ref i)).length
    rw [initBuckets_getD_count, Nat.zero_add]
  · intro inv hpos i
    simp only [inBucket, Bool.and_eq_true, decide_eq_true_eq, beq_iff_eq]
    constructor
    · rintro ⟨-, h⟩
      exact h.symm
    · intro h
      exact ⟨hpos, h.symm⟩
  · intro inv h i
    simp [inBucket, not_lt.mpr h]
  · intro a
    unfold bucketIndexOf
    split_ifs <;> simp_all <;> omega

/-- Witness for C1 at a concrete input: the single positive invoice due
2024-05-31 is counted once in bucket 2 at the default reference date. -/
theorem aging_bucket_partition_witness :
    ((calculateAllowance [sampleMidInvoice] defaultReferenceDate).getD 2
      dummyBucket).invoice_count =
    (([sampleMidInvoice]).filter (inBucket defaultReferenceDate 2)).length :=
  (aging_bucket_partition [sampleMidInvoice] defaultReferenceDate).2.2.2.1 2
    (by decide)

/-- C3: each bucket's estimated_allowance equals total_amount times the fixed
rate (Current 1%, 1-30 5%, 31-60 10%, 61-90 25%, 90+ 50%) exactly, and
calculateAllowance computes it once in a final map pass over the buckets
accumulated by the invoice loop, not incrementally per invoice. -/
theorem allowance_final_pass (invs : List Invoice) (ref : Date) :
    calculateAllowance invs ref =
      (invs.foldl (agingStep ref) initBuckets).map applyAllowance ∧
    (∀ b : AgingBucket,
      applyAllowance b = { b with
        estimated_allowance := b.total_amount * b.allowance_rate }) ∧
    (calculateAllowance invs ref).map (fun b => b.allowance_rate) =
      [(0.01 : Rat), 0.05, 0.10, 0.25, 0.50] ∧
    (∀ i, i < 5 →
      ((calculateAllowance invs ref).getD i dummyBucket).estimated_allowance =
        ((calculateAllowance invs ref).getD i dummyBucket).total_amount *
          ((calculateAllowance invs ref).getD i dummyBucket).allowance_rate) := by
  refine ⟨rfl, fun b => rfl, ?_, ?_⟩
  · unfold calculateAllowance
    rw [map_map_applyAllowance (invs.foldl (agingStep ref) initBuckets)
        (fun (b : AgingBucket) => b.allowance_rate) (fun b => rfl),
      foldl_agingStep_map ref invs initBuckets
        (fun (b : AgingBucket) => b.allowance_rate) (fun b t c => rfl)]
    rfl
  · intro i hi
    rw [calculateAllowance_getD _ _ _ hi]
    simp [applyAllowance]

/-- Witness for C3 at a concrete input: bucket 2 of the singleton run. -/
theorem allowance_final_pass_witness :
    ((calculateAllowance [sampleMidInvoice] defaultReferenceDate).getD 2
      dummyBucket).estimated_allowance =
    ((calculateAllowance [sampleMidInvoice] defaultReferenceDate).getD 2
      dummyBucket).total_amount *
      ((calculateAllowance [sampleMidInvoice] defaultReferenceDate).getD 2
        dummyBucket).allowance_rate :=
  (allowance_final_pass [sampleMidInvoice] defaultReferenceDate).2.2.2 2
    (by decide)

/-- C4: an invoice with nonpositive balance_due is excluded from every bucket:
inserting it anywhere leaves the whole result of calculateAllowance (hence
every bucket's total_amount, invoice_count and estimated_allowance)
unchanged, for any reference date. -/
theorem aging_skips_nonpositive (pre post : List Invoice) (inv : Invoice)
    (ref : Date) (h : inv.balance_due ≤ 0) :
    calculateAllowance (pre ++ inv :: post) ref =
      calculateAllowance (pre ++ post) ref := by
  unfold calculateAllowance
  rw [List.foldl_append, List.foldl_append, List.foldl_cons]
  have hskip : agingStep ref (pre.foldl (agingStep ref) initBuckets) inv =
      pre.foldl (agingStep ref) initBuckets := by
    unfold agingStep
    rw [if_pos h]
  rw [hskip]

/-- Witness for C4 at a concrete input: adding the paid sample invoice in
front of the overdue one changes nothing. -/
theorem aging_skips_nonpositive_witness :
    calculateAllowance [samplePaidInvoice, sampleOverdueInvoice]
        defaultReferenceDate =
      calculateAllowance [sampleOverdueInvoice] defaultReferenceDate :=
  aging_skips_nonpositive [] [sampleOverdueInvoice] samplePaidInvoice
    defaultReferenceDate (by decide)

/-- C8: at reference date 2024-07-01, an invoice due 2024-03-31 has age 92
and lands in the 90+ Days bucket; an invoice due 2024-05-31 with balance 5000
has age 31 and lands in the 31-60 Days bucket, which then (alone there) shows
total_amount 5000 and estimated_allowance 500. -/
theorem aging_concrete_scenarios :
    diffDaysOf defaultReferenceDate ⟨2024, 3, 31⟩ = 92 ∧
    bucketIndexOf 92 = 4 ∧
    ((calculateAllowance [sampleOverdueInvoice] defaultReferenceDate).getD 4
      dummyBucket).bucket = "90+ Days" ∧
    ((calculateAllowance [sampleOverdueInvoice] defaultReferenceDate).getD 4
      dummyBucket).invoice_count = 1 ∧
    diffDaysOf defaultReferenceDate ⟨2024, 5, 31⟩ = 31 ∧
    bucketIndexOf 31 = 2 ∧
    (calculateAllowance [sampleMidInvoice] defaultReferenceDate).getD 2
      dummyBucket =
      { bucket := "31-60 Days", total_amount := 5000, invoice_count := 1,
        allowance_rate := 0.10, estimated_allowance := 500 } := by
  decide

/-! CSV ingestion (App.tsx parseCSVLine, parseCSVData, handleFileUpload). -/

/-- The characters of a string literal. -/
def chars (s : String) : List Char := s.toList

/-- Whitespace characters trimmed by JS String.trim on the inputs at hand
(the ASCII whitespace class; exotic Unicode space is not modelled). -/
def isSpaceChar (c : Char) : Bool :=
  c = ' ' || c = '\t' || c = '\n' || c = '\r' || c = '\x0b' || c = '\x0c'

/-- JS String.trim: drop leading and trailing whitespace. -/
def trim (l : List Char) : List Char :=
  ((l.dropWhile isSpaceChar).reverse.dropWhile isSpaceChar).reverse

/-- JS v.replace of the anchored quote regex: remove one leading and one
trailing double-quote character when present. -/
def unquote (l : List Char) : List Char :=
  let l1 := match l with
    | '"' :: r => r
    | _ => l
  match l1.reverse with
  | '"' :: r => r.reverse
  | _ => l1

/-- JS String.split on a separator character (keeps empty segments,
yields one empty segment on empty input). -/
def splitChar (sep : Char) : List Char → List (List Char)
  | [] => [[]]
  | c :: r =>
    if c == sep then [] :: splitChar sep r
    else
      match splitChar sep r with
      | f :: fs => (c :: f) :: fs
      | [] => [[c]]

/-- JS content.split of the line regex: break at CRLF or LF. -/
def splitLinesRN : List Char → List (List Char)
  | [] => [[]]
  | '\r' :: '\n' :: r => [] :: splitLinesRN r
  | '\n' :: r => [] :: splitLinesRN r
  | c :: r =>
    match splitLinesRN r with
    | f :: fs => (c :: f) :: fs
    | [] => [[c]]

/-- The character loop of App.tsx parseCSVLine: a double quote toggles
inside-quote mode (and is dropped), a comma outside quotes closes the current
value, anything else extends it; each closed value is trimmed. -/
def parseCSVLineAux : List Char → Bool → List Char → List (List Char) →
    List (List Char)
  | [], _, cur, acc => acc ++ [trim cur]
  | c :: rest, inQuote, cur, acc =>
    if c == '"' then parseCSVLineAux rest (!inQuote) cur acc
    else if c == ',' && !inQuote then parseCSVLineAux rest inQuote [] (acc ++ [trim cur])
    else parseCSVLineAux rest inQuote (cur ++ [c]) acc

/-- App.tsx parseCSVLine. -/
def parseCSVLine (line : List Char) : List (List Char) :=
  parseCSVLineAux line false [] []

/-- Specification-level splitter, written directly from the spec sentence:
split on commas outside quoted spans, a double quote toggling inside-quote
mode without becoming part of any value. -/
def splitOutsideQuotes (inQuote : Bool) : List Char → List (List Char)
  | [] => [[]]
  | c :: r =>
    if c == '"' then splitOutsideQuotes (!inQuote) r
    else if c == ',' && !inQuote then [] :: splitOutsideQuotes inQuote r
    else
      match splitOutsideQuotes inQuote r with
      | f :: fs => (c :: f) :: fs
      | [] => [[c]]

/-- Prepend a prefix onto the first field of a field list. -/
def consHead (p : List Char) : List (List Char) → List (List Char)
  | [] => [p]
  | f :: fs => (p ++ f) :: fs

/-- Numeric value of a digit list (most significant first). -/
def digitsVal (ds : List Char) : Nat :=
  ds.foldl (fun a c => a * 10 + (c.toNat - 48)) 0

/-- Optional leading sign; true means negative. -/
def parseSign : List Char → Bool × List Char
  | '-' :: r => (true, r)
  | '+' :: r => (false, r)
  | l => (false, l)

/-- JS parseFloat on the longest valid decimal-literal prefix: optional
leading whitespace, optional sign, digits with optional fraction, optional
exponent; none when no digits are found (JS NaN).  The rarely-hit literal
"Infinity" is outside this model. -/
def parseFloat (l : List Char) : Option Rat :=
  let l1 := (parseSign (l.dropWhile isSpaceChar)).2
  let neg := (parseSign (l.dropWhile isSpaceChar)).1
  let ip := l1.takeWhile Char.isDigit
  let l2 := l1.dropWhile Char.isDigit
  let fp := match l2 with
    | '.' :: r => r.takeWhile Char.isDigit
    | _ => []
  let l3 := match l2 with
    | '.' :: r => r.dropWhile Char.isDigit
    | _ => l2
  if ip.isEmpty && fp.isEmpty then none
  else
    let mant : Rat := (digitsVal ip : Rat) + (digitsVal fp : Rat) / ((10 : Rat) ^ fp.length)
    let e : Int := match l3 with
      | c :: r =>
        if c == 'e' || c == 'E' then
          let ed := (parseSign r).2.takeWhile Char.isDigit
          if ed.isEmpty then 0
          else if (parseSign r).1 then -(digitsVal ed : Int) else (digitsVal ed : Int)
        else 0
      | [] => 0
    let mag : Rat :=
      if 0 ≤ e then mant * (10 : Rat) ^ e.toNat else mant / (10 : Rat) ^ (-e).toNat
    some (if neg then -mag else mag)

/-- JS (parseFloat(v) || 0): a failed parse (NaN) falls back to 0; a parsed
0 stays 0. -/
def parseFloatOr0 (l : List Char) : Rat :=
  (parseFloat l).getD 0

/-- The value stored in the untyped row object for one field. -/
inductive FieldValue
  | num (q : Rat)
  | nums (qs : List Rat)
  | str (s : List Char)
  | missing
deriving DecidableEq, Repr

/-- The header names auto-converted to numbers by parseCSVData. -/
def numericHeaders : List (List Char) :=
  [chars "original_amount", chars "amount_paid", chars "balance_due", chars "amount"]

/-- The per-field coercion of parseCSVData: numeric headers get
parseFloat-or-0 (an absent value also parses to NaN, hence 0);
risk_score_history splits on semicolons with each segment parseFloat-or-0,
an absent or empty value giving the empty array; any other header passes the
value through (absent stays undefined). -/
def coerceField (h : List Char) (rawVal : Option (List Char)) : FieldValue :=
  let val := rawVal.map unquote
  if numericHeaders.contains h then
    .num (match val with
      | some s => parseFloatOr0 s
      | none => 0)
  else if h = chars "risk_score_history" then
    match val with
    | some s => if s.isEmpty then .nums [] else .nums ((splitChar ';' s).map parseFloatOr0)
    | none => .nums []
  else
    match val with
    | some s => .str s
    | none => .missing

/-- An untyped parsed CSV row: field name paired with coerced value, in
header order (the obj[h] assignments of the source). -/
abbrev Row := List (List Char × FieldValue)

/-- The headers.forEach((h, i) => obj[h] = coerce(values[i])) loop. -/
def buildRowFrom (values : List (List Char)) : Nat → List (List Char) → Row
  | _, [] => []
  | i, h :: hs => (h, coerceField h values[i]?) :: buildRowFrom values (i + 1) hs

/-- Build the row object of one data line. -/
def buildRow (headers values : List (List Char)) : Row :=
  buildRowFrom values 0 headers

/-- App.tsx parseCSVData: take the non-blank lines; with fewer than two of
them return empty headers and no data; otherwise the first line split on
plain commas (trimmed, unquoted, lower-cased) gives the headers and every
further line is parsed by parseCSVLine and coerced into a row object. -/
def parseCSVData (content : List Char) : List (List Char) × List Row :=
  let lines := (splitLinesRN content).filter (fun l => !(trim l).isEmpty)
  if lines.length < 2 then ([], [])
  else
    let headers := (splitChar ',' (lines.headD [])).map
      (fun h => (unquote (trim h)).map Char.toLower)
    (headers, (lines.drop 1).map (fun line => buildRow headers (parseCSVLine line)))

/-- The four primary dataset kinds a CSV upload can replace. -/
inductive DType
  | accounts | customers | invoices | transactions
deriving DecidableEq, Repr

/-- headers.includes(name) of the detection chain. -/
def hasHeader (hs : List (List Char)) (s : String) : Bool :=
  hs.contains s.toList

/-- The header auto-detection chain of handleFileUpload for a CSV file, in
source order: COA, then Customers, then Invoices, then Transactions. -/
def detectType (hs : List (List Char)) : Option DType :=
  if hasHeader hs "account_id" && hasHeader hs "account_type" then some .accounts
  else if hasHeader hs "customer_id" && hasHeader hs "risk_score_history" then some .customers
  else if hasHeader hs "invoice_id" && hasHeader hs "balance_due" then some .invoices
  else if hasHeader hs "transaction_id" && hasHeader hs "debit_account_id" then some .transactions
  else none

/-- The four primary record sets held by the App component state
(as the untyped rows a CSV upload stores). -/
structure AppState where
  coa : List Row
  customers : List Row
  invoices : List Row
  transactions : List Row
deriving DecidableEq, Repr

/-- Processing of one CSV file by handleFileUpload: parse, detect, replace
the matching primary set wholesale; an unrecognized file changes nothing and
contributes nothing to loadedInfo. -/
def applyCSVFile (st : AppState) (content : List Char) : AppState × Option DType :=
  let parsed := parseCSVData content
  match detectType parsed.1 with
  | some .accounts => ({ st with coa := parsed.2 }, some .accounts)
  | some .customers => ({ st with customers := parsed.2 }, some .customers)
  | some .invoices => ({ st with invoices := parsed.2 }, some .invoices)
  | some .transactions => ({ st with transactions := parsed.2 }, some .transactions)
  | none => (st, none)

/-- One iteration of the file loop of handleFileUpload: apply the file to the
state and append its detected kind (if any) to loadedInfo. -/
def processStep (acc : AppState × List DType) (f : List Char) :
    AppState × List DType :=
  let r := applyCSVFile acc.1 f
  (r.1, acc.2 ++ r.2.toList)

/-- The sequential file loop of handleFileUpload over a CSV batch,
accumulating loadedInfo. -/
def processCSVFiles (st : AppState) (files : List (List Char)) :
    AppState × List DType :=
  files.foldl processStep (st, [])

/-- The outcome reported after the loop: the success alert when anything
loaded, the distinct "No recognized data found" alert otherwise. -/
inductive UploadOutcome
  | loaded (kinds : List DType)
  | nothingRecognized
deriving DecidableEq, Repr

/-- loadedInfo.length > 0 decides which alert fires. -/
def uploadOutcome (kinds : List DType) : UploadOutcome :=
  if kinds.isEmpty then .nothingRecognized else .loaded kinds

/-- A state with all four primary sets empty. -/
def emptyState : AppState :=
  { coa := [], customers := [], invoices := [], transactions := [] }

/-- The Accounts header signature of the detection chain. -/
def acctSigB (hs : List (List Char)) : Bool :=
  hasHeader hs "account_id" && hasHeader hs "account_type"

/-- The Customers header signature of the detection chain. -/
def custSigB (hs : List (List Char)) : Bool :=
  hasHeader hs "customer_id" && hasHeader hs "risk_score_history"

/-- The Invoices header signature of the detection chain. -/
def invSigB (hs : List (List Char)) : Bool :=
  hasHeader hs "invoice_id" && hasHeader hs "balance_due"

/-- The Transactions header signature of the detection chain. -/
def txnSigB (hs : List (List Char)) : Bool :=
  hasHeader hs "transaction_id" && hasHeader hs "debit_account_id"

lemma applyCSVFile_none (st : AppState) (content : List Char)
    (h : detectType (parseCSVData content).1 = none) :
    applyCSVFile st content = (st, none) := by
  simp [applyCSVFile, h]

lemma foldl_processStep_none (files : List (List Char)) :
    ∀ (st : AppState) (acc : List DType),
      (∀ f ∈ files, detectType (parseCSVData f).1 = none) →
      files.foldl processStep (st, acc) = (st, acc) := by
  induction files with
  | nil => intro st acc h; rfl
  | cons f fs ih =>
    intro st acc h
    simp only [List.foldl_cons]
    have hstep : processStep (st, acc) f = (st, acc) := by
      simp only [processStep]
      rw [applyCSVFile_none st f (h f (by simp))]
      simp
    rw [hstep]
    exact ih st acc (fun g hg => h g (by simp [hg]))

lemma complianceStep_eq (ids : List String) (issues : List ComplianceIssue)
    (txn : Transaction) :
    complianceStep ids issues txn = issues ++ issuesFor ids txn := by
  unfold complianceStep issuesFor
  split_ifs <;> simp

lemma foldl_complianceStep (ids : List String) (txns : List Transaction) :
    ∀ acc : List ComplianceIssue,
      txns.foldl (complianceStep ids) acc = acc ++ txns.flatMap (issuesFor ids) := by
  induction txns with
  | nil => intro acc; simp
  | cons txn txns ih =>
    intro acc
    simp only [List.foldl_cons, List.flatMap_cons, complianceStep_eq]
    rw [ih]
    simp

/-- A transaction from the mock journal whose two account references are both
absent from a one-account chart of accounts. -/
def sampleBadTxn : Transaction :=
  { transaction_id := "TXN-ERR-01", transaction_date := "2024-05-02",
    debit_account_id := "9999", credit_account_id := "4005", amount := 1500,
    reference_invoice_id := none, description := "Suspicious Adjustment" }

/-- C2: checkCoaCompliance emits issues in input transaction order, testing
debit and credit ids independently against the account-id set: a missing
debit id yields one Invalid Debit Account issue (severity High), a missing
credit id one Invalid Credit Account issue (severity High), additively, so a
transaction with both ids absent yields exactly those two issues and no
transaction yields more than two. -/
theorem checkCompliance_issue_rules (txns : List Transaction)
    (coa : List Account) (ids : List String) (txn : Transaction) :
    checkCoaCompliance txns coa =
      txns.flatMap (issuesFor (coa.map (fun a => a.account_id))) ∧
    (issuesFor ids txn).length ≤ 2 ∧
    (ids.contains txn.debit_account_id = false →
      ids.contains txn.credit_account_id = false →
      issuesFor ids txn = [debitIssue txn, creditIssue txn]) ∧
    ((issuesFor ids txn).countP
        (fun iss => iss.issue_type == IssueType.InvalidDebitAccount) =
      if ids.contains txn.debit_account_id then 0 else 1) ∧
    ((issuesFor ids txn).countP
        (fun iss => iss.issue_type == IssueType.InvalidCreditAccount) =
      if ids.contains txn.credit_account_id then 0 else 1) ∧
    (∀ iss ∈ issuesFor ids txn,
      iss.severity = Severity.High ∧ iss.transaction_id = txn.transaction_id) := by
  refine ⟨?_, ?_, ?_, ?_, ?_, ?_⟩
  · unfold checkCoaCompliance
    rw [foldl_complianceStep]
    simp
  · unfold issuesFor
    split_ifs <;> simp
  · intro hd hc
    simp at hd hc
    simp [issuesFor, hd, hc]
  · unfold issuesFor
    rcases hd : ids.contains txn.debit_account_id <;>
      rcases hc : ids.contains txn.credit_account_id <;>
        simp [List.countP_cons, debitIssue, creditIssue]
  · unfold issuesFor
    rcases hd : ids.contains txn.debit_account_id <;>
      rcases hc : ids.contains txn.credit_account_id <;>
        simp [List.countP_cons, debitIssue, creditIssue]
  · intro iss hiss
    unfold issuesFor at hiss
    split_ifs at hiss <;> simp at hiss <;>
      first
        | (rcases hiss with h | h <;> subst h <;> simp [debitIssue, creditIssue])
        | (subst hiss; simp [debitIssue, creditIssue])

/-- Witness for C2 at a concrete input: both sides of the sample transaction
are absent from the one-account chart, producing exactly the two issues. -/
theorem checkCompliance_issue_rules_witness :
    issuesFor ["1100"] sampleBadTxn =
      [debitIssue sampleBadTxn, creditIssue sampleBadTxn] :=
  (checkCompliance_issue_rules [] [] ["1100"] sampleBadTxn).2.2.1
    (by decide) (by decide)

lemma splitOutsideQuotes_ne_nil (l : List Char) :
    ∀ inQ : Bool, splitOutsideQuotes inQ l ≠ [] := by
  induction l with
  | nil => intro inQ; simp [splitOutsideQuotes]
  | cons c r ih =>
    intro inQ
    unfold splitOutsideQuotes
    split_ifs with h1 h2
    · exact ih (!inQ)
    · simp
    · rcases hr : splitOutsideQuotes inQ r with _ | ⟨f, fs⟩ <;> simp [hr]

lemma parseCSVLineAux_spec (l : List Char) :
    ∀ (inQ : Bool) (cur : List Char) (acc : List (List Char)),
      parseCSVLineAux l inQ cur acc =
        acc ++ (consHead cur (splitOutsideQuotes inQ l)).map trim := by
  induction l with
  | nil =>
    intro inQ cur acc
    simp [parseCSVLineAux, splitOutsideQuotes, consHead]
  | cons c r ih =>
    intro inQ cur acc
    unfold parseCSVLineAux splitOutsideQuotes
    split_ifs with h1 h2
    · exact ih (!inQ) cur acc
    · rw [ih inQ [] (acc ++ [trim cur])]
      obtain ⟨f, fs, hr⟩ :=
        List.exists_cons_of_ne_nil (splitOutsideQuotes_ne_nil r inQ)
      rw [hr]
      simp [consHead]
    · rw [ih inQ (cur ++ [c]) acc]
      obtain ⟨f, fs, hr⟩ :=
        List.exists_cons_of_ne_nil (splitOutsideQuotes_ne_nil r inQ)
      rw [hr]
      simp [consHead]

/-- C6: parseCSVLine splits a line on commas outside quoted spans, each
double quote toggling inside-quote mode without entering the value, and each
value is trimmed (quotes never survive into a value); in particular a quoted
field containing a comma stays one field. -/
theorem parseCSVLine_splits_outside_quotes (line : List Char) :
    parseCSVLine line = (splitOutsideQuotes false line).map trim ∧
    parseCSVLine (chars "CUST-001,\"Acme, Inc\",finance@acme.com") =
      [chars "CUST-001", chars "Acme, Inc", chars "finance@acme.com"] := by
  constructor
  · rw [parseCSVLine, parseCSVLineAux_spec]
    obtain ⟨f, fs, hr⟩ :=
      List.exists_cons_of_ne_nil (splitOutsideQuotes_ne_nil line false)
    rw [hr]
    simp [consHead]
  · decide

lemma buildRowFrom_getD (values : List (List Char)) (hs : List (List Char)) :
    ∀ (i k : Nat), k < hs.length →
      (buildRowFrom values i hs).getD k ([], FieldValue.missing) =
        (hs.getD k [], coerceField (hs.getD k []) values[i + k]?) := by
  induction hs with
  | nil => intro i k hk; simp at hk
  | cons h t ih =>
    intro i k hk
    cases k with
    | zero => simp [buildRowFrom]
    | succ k =>
      simp only [buildRowFrom, List.getD_cons_succ]
      have hik : i + 1 + k = i + (k + 1) := by omega
      rw [ih (i + 1) k (by simpa using hk), hik]

lemma coerceField_numeric_none (h : List Char)
    (hc : numericHeaders.contains h = true) :
    coerceField h none = FieldValue.num 0 := by
  simp only [coerceField]
  rw [if_pos hc]
  rfl

lemma coerceField_numeric_some (h s : List Char)
    (hc : numericHeaders.contains h = true) :
    coerceField h (some s) = FieldValue.num (parseFloatOr0 (unquote s)) := by
  simp only [coerceField]
  rw [if_pos hc]
  rfl

lemma coerceField_risk_some (s : List Char) :
    coerceField (chars "risk_score_history") (some s) =
      if (unquote s).isEmpty then FieldValue.nums []
      else FieldValue.nums ((splitChar ';' (unquote s)).map parseFloatOr0) := by
  simp only [coerceField]
  rw [if_neg (by decide)]
  simp

lemma coerceField_other_some (h s : List Char)
    (hc : numericHeaders.contains h = false)
    (hr : h ≠ chars "risk_score_history") :
    coerceField h (some s) = FieldValue.str (unquote s) := by
  simp only [coerceField]
  rw [if_neg (by rw [hc]; decide), if_neg hr]
  rfl

lemma coerceField_other_none (h : List Char)
    (hc : numericHeaders.contains h = false)
    (hr : h ≠ chars "risk_score_history") :
    coerceField h none = FieldValue.missing := by
  simp only [coerceField]
  rw [if_neg (by rw [hc]; decide), if_neg hr]
  rfl

/-- C7: the coercion parseCSVData applies to row values is total and never
errors: a value under original_amount, amount_paid, balance_due or amount
becomes parseFloat-or-0 (0 when absent or unparsable); a value under
risk_score_history splits on semicolons, each segment parseFloat-or-0, with
an absent or empty value giving the empty sequence; every other present
value passes through as a string (and an absent one stays undefined). -/
theorem csv_field_coercion (hs vs : List (List Char)) (i : Nat)
    (hi : i < hs.length) :
    ((buildRow hs vs).getD i ([], FieldValue.missing)).1 = hs.getD i [] ∧
    (hs.getD i [] ∈ numericHeaders → vs[i]? = none →
      ((buildRow hs vs).getD i ([], FieldValue.missing)).2 = FieldValue.num 0) ∧
    (hs.getD i [] ∈ numericHeaders → ∀ s, vs[i]? = some s →
      ((buildRow hs vs).getD i ([], FieldValue.missing)).2 =
        FieldValue.num ((parseFloat (unquote s)).getD 0)) ∧
    (hs.getD i [] ∈ numericHeaders → ∀ s, vs[i]? = some s →
      parseFloat (unquote s) = none →
      ((buildRow hs vs).getD i ([], FieldValue.missing)).2 = FieldValue.num 0) ∧
    (hs.getD i [] = chars "risk_score_history" → vs[i]? = none →
      ((buildRow hs vs).getD i ([], FieldValue.missing)).2 = FieldValue.nums []) ∧
    (hs.getD i [] = chars "risk_score_history" → ∀ s, vs[i]? = some s →
      unquote s = [] →
      ((buildRow hs vs).getD i ([], FieldValue.missing)).2 = FieldValue.nums []) ∧
    (hs.getD i [] = chars "risk_score_history" → ∀ s, vs[i]? = some s →
      unquote s ≠ [] →
      ((buildRow hs vs).getD i ([], FieldValue.missing)).2 =
        FieldValue.nums ((splitChar ';' (unquote s)).map
          (fun seg => (parseFloat seg).getD 0))) ∧
    (hs.getD i [] ∉ numericHeaders → hs.getD i [] ≠ chars "risk_score_history" →
      ∀ s, vs[i]? = some s →
      ((buildRow hs vs).getD i ([], FieldValue.missing)).2 =
        FieldValue.str (unquote s)) ∧
    (hs.getD i [] ∉ numericHeaders → hs.getD i [] ≠ chars "risk_score_history" →
      vs[i]? = none →
      ((buildRow hs vs).getD i ([], FieldValue.missing)).2 = FieldValue.missing) := by
  have hb : (buildRow hs vs).getD i ([], FieldValue.missing) =
      (hs.getD i [], coerceField (hs.getD i []) vs[i]?) := by
    simpa [buildRow] using buildRowFrom_getD vs hs 0 i hi
  have hb2 : ((buildRow hs vs).getD i ([], FieldValue.missing)).2 =
      coerceField (hs.getD i []) vs[i]? := by
    rw [hb]
  refine ⟨by rw [hb], ?_, ?_, ?_, ?_, ?_, ?_, ?_, ?_⟩
  · intro hmem hv
    rw [hb2, hv]
    exact coerceField_numeric_none _ (by simpa using hmem)
  · intro hmem s hv
    rw [hb2, hv]
    exact coerceField_numeric_some _ _ (by simpa using hmem)
  · intro hmem s hv hf
    rw [hb2, hv, coerceField_numeric_some _ _ (by simpa using hmem)]
    simp [parseFloatOr0, hf]
  · intro hrisk hv
    rw [hb2, hv, hrisk]
    decide
  · intro hrisk s hv he
    rw [hb2, hv, hrisk, coerceField_risk_some]
    simp [he]
  · intro hrisk s hv hne
    rw [hb2, hv, hrisk, coerceField_risk_some]
    simp only [List.isEmpty_eq_true]
    rw [if_neg hne]
    simp [parseFloatOr0]
  · intro hnum hrisk s hv
    rw [hb2, hv]
    exact coerceField_other_some _ _ (by simpa using hnum) hrisk
  · intro hnum hrisk hv
    rw [hb2, hv]
    exact coerceField_other_none _ (by simpa using hnum) hrisk

/-- Witness for C7 at a concrete input: a risk_score_history value with one
unparsable segment coerces to the defaulted number list. -/
theorem csv_field_coercion_witness :
    ((buildRow [chars "customer_id", chars "risk_score_history"]
        [chars "C1", chars "10;abc;20"]).getD 1 ([], FieldValue.missing)).2 =
      FieldValue.nums ((splitChar ';' (unquote (chars "10;abc;20"))).map
        (fun seg => (parseFloat seg).getD 0)) :=
  (csv_field_coercion [chars "customer_id", chars "risk_score_history"]
      [chars "C1", chars "10;abc;20"] 1 (by decide)).2.2.2.2.2.2.1
    (by decide) (chars "10;abc;20") (by decide) (by decide)

/-- C9: a CSV payload with fewer than two non-blank lines parses to empty
headers and no records, so it is never recognized as any dataset and leaves
the state untouched, even when its lone header line matches a signature. -/
theorem csv_too_short_rejected (content : List Char) (st : AppState)
    (h : ((splitLinesRN content).filter (fun l => !(trim l).isEmpty)).length < 2) :
    parseCSVData content = ([], []) ∧ applyCSVFile st content = (st, none) := by
  have hp : parseCSVData content = ([], []) := by
    unfold parseCSVData
    rw [if_pos h]
  refine ⟨hp, ?_⟩
  unfold applyCSVFile
  rw [hp]
  rfl

/-- Witness for C9 at a concrete input: a lone header line that would match
the Invoices signature is still rejected. -/
theorem csv_too_short_rejected_witness :
    parseCSVData (chars "invoice_id,balance_due") = ([], []) ∧
    applyCSVFile emptyState (chars "invoice_id,balance_due") =
      (emptyState, none) :=
  csv_too_short_rejected (chars "invoice_id,balance_due") emptyState (by decide)

/-- C10: CSV type detection follows the fixed precedence Accounts, Customers,
Invoices, Transactions (the first matching signature wins), and one CSV file
replaces at most one of the four primary record sets. -/
theorem csv_detection_precedence (hs : List (List Char)) (st : AppState)
    (content : List Char) :
    (acctSigB hs = true → detectType hs = some DType.accounts) ∧
    (acctSigB hs = false → custSigB hs = true →
      detectType hs = some DType.customers) ∧
    (acctSigB hs = false → custSigB hs = false → invSigB hs = true →
      detectType hs = some DType.invoices) ∧
    (acctSigB hs = false → custSigB hs = false → invSigB hs = false →
      txnSigB hs = true → detectType hs = some DType.transactions) ∧
    (((applyCSVFile st content).1.customers = st.customers ∧
      (applyCSVFile st content).1.invoices = st.invoices ∧
      (applyCSVFile st content).1.transactions = st.transactions) ∨
     ((applyCSVFile st content).1.coa = st.coa ∧
      (applyCSVFile st content).1.invoices = st.invoices ∧
      (applyCSVFile st content).1.transactions = st.transactions) ∨
     ((applyCSVFile st content).1.coa = st.coa ∧
      (applyCSVFile st content).1.customers = st.customers ∧
      (applyCSVFile st content).1.transactions = st.transactions) ∨
     ((applyCSVFile st content).1.coa = st.coa ∧
      (applyCSVFile st content).1.customers = st.customers ∧
      (applyCSVFile st content).1.invoices = st.invoices)) := by
  refine ⟨?_, ?_, ?_, ?_, ?_⟩
  · intro h1
    unfold acctSigB at h1
    unfold detectType
    rw [if_pos h1]
  · intro h1 h2
    unfold acctSigB at h1
    unfold custSigB at h2
    unfold detectType
    rw [if_neg (by rw [h1]; decide), if_pos h2]
  · intro h1 h2 h3
    unfold acctSigB at h1
    unfold custSigB at h2
    unfold invSigB at h3
    unfold detectType
    rw [if_neg (by rw [h1]; decide), if_neg (by rw [h2]; decide), if_pos h3]
  · intro h1 h2 h3 h4
    unfold acctSigB at h1
    unfold custSigB at h2
    unfold invSigB at h3
    unfold txnSigB at h4
    unfold detectType
    rw [if_neg (by rw [h1]; decide), if_neg (by rw [h2]; decide),
      if_neg (by rw [h3]; decide), if_pos h4]
  · rcases hd : detectType (parseCSVData content).1 with _ | k
    · exact Or.inl (by simp [applyCSVFile, hd])
    · cases k
      · exact Or.inl (by simp [applyCSVFile, hd])
      · exact Or.inr (Or.inl (by simp [applyCSVFile, hd]))
      · exact Or.inr (Or.inr (Or.inl (by simp [applyCSVFile, hd])))
      · exact Or.inr (Or.inr (Or.inr (by simp [applyCSVFile, hd])))

/-- Witness for C10 at a concrete input: headers matching both the Accounts
and the Customers signatures are classified as Accounts. -/
theorem csv_detection_precedence_witness :
    detectType [chars "account_id", chars "account_type", chars "customer_id",
      chars "risk_score_history"] = some DType.accounts :=
  (csv_detection_precedence [chars "account_id", chars "account_type",
      chars "customer_id", chars "risk_score_history"] emptyState []).1
    (by decide)

/-- A CSV whose headers contain both the Customers pair and the Accounts
pair. -/
def overlapContent : List Char :=
  chars "customer_id,risk_score_history,account_id,account_type\nC1,10;20,1100,Asset"

/-- Counterexample to C5 as stated: this payload's headers include both
customer_id and risk_score_history, yet it is not interpreted as Customers
(the Accounts signature matched first), so the per-type "iff" of the claim
fails for Customers. -/
theorem csv_detection_iff_cex :
    hasHeader (parseCSVData overlapContent).1 "customer_id" = true ∧
    hasHeader (parseCSVData overlapContent).1 "risk_score_history" = true ∧
    detectType (parseCSVData overlapContent).1 ≠ some DType.customers ∧
    detectType (parseCSVData overlapContent).1 = some DType.accounts ∧
    (applyCSVFile emptyState overlapContent).1.customers =
      emptyState.customers ∧
    (applyCSVFile emptyState overlapContent).1.coa ≠ emptyState.coa := by
  decide

/-- C5 amended: a CSV payload is interpreted as the first signature match in
the order Accounts, Customers, Invoices, Transactions (each signature being
the claimed header pair); when no signature matches the payload is rejected
with no dataset produced or modified, and a batch in which no file is
recognized is a no-op reported by the distinct nothing-recognized outcome. -/
theorem csv_detection_amended (hs : List (List Char)) (st : AppState)
    (content : List Char) (files : List (List Char)) :
    (detectType hs = some DType.accounts ↔ acctSigB hs = true) ∧
    (detectType hs = some DType.customers ↔
      custSigB hs = true ∧ acctSigB hs = false) ∧
    (detectType hs = some DType.invoices ↔
      invSigB hs = true ∧ acctSigB hs = false ∧ custSigB hs = false) ∧
    (detectType hs = some DType.transactions ↔
      txnSigB hs = true ∧ acctSigB hs = false ∧ custSigB hs = false ∧
        invSigB hs = false) ∧
    (detectType hs = none ↔
      acctSigB hs = false ∧ custSigB hs = false ∧ invSigB hs = false ∧
        txnSigB hs = false) ∧
    (detectType (parseCSVData content).1 = none →
      applyCSVFile st content = (st, none)) ∧
    ((∀ f ∈ files, detectType (parseCSVData f).1 = none) →
      processCSVFiles st files = (st, []) ∧
      uploadOutcome (processCSVFiles st files).2 =
        UploadOutcome.nothingRecognized) := by
  have hchar :
      (detectType hs = some DType.accounts ↔ acctSigB hs = true) ∧
      (detectType hs = some DType.customers ↔
        custSigB hs = true ∧ acctSigB hs = false) ∧
      (detectType hs = some DType.invoices ↔
        invSigB hs = true ∧ acctSigB hs = false ∧ custSigB hs = false) ∧
      (detectType hs = some DType.transactions ↔
        txnSigB hs = true ∧ acctSigB hs = false ∧ custSigB hs = false ∧
          invSigB hs = false) ∧
      (detectType hs = none ↔
        acctSigB hs = false ∧ custSigB hs = false ∧ invSigB hs = false ∧
          txnSigB hs = false) := by
    unfold detectType acctSigB custSigB invSigB txnSigB
    cases hA : hasHeader hs "account_id" && hasHeader hs "account_type" <;>
      cases hB : hasHeader hs "customer_id" && hasHeader hs "risk_score_history" <;>
        cases hC : hasHeader hs "invoice_id" && hasHeader hs "balance_due" <;>
          cases hD : hasHeader hs "transaction_id" && hasHeader hs "debit_account_id" <;>
            simp [hA, hB, hC, hD]
  refine ⟨hchar.1, hchar.2.1, hchar.2.2.1, hchar.2.2.2.1, hchar.2.2.2.2,
    applyCSVFile_none st content, ?_⟩
  intro hall
  have h2 : processCSVFiles st files = (st, []) :=
    foldl_processStep_none files st [] hall
  refine ⟨h2, ?_⟩
  rw [h2]
  rfl

/-- Witness for C5 (amended) at a concrete input: a batch of one CSV with
unrecognized headers is a no-op reported as nothing recognized. -/
theorem csv_detection_amended_witness :
    processCSVFiles emptyState [chars "foo,bar\n1,2"] = (emptyState, []) ∧
    uploadOutcome (processCSVFiles emptyState [chars "foo,bar\n1,2"]).2 =
      UploadOutcome.nothingRecognized :=
  (csv_detection_amended [] emptyState []
      [chars "foo,bar\n1,2"]).2.2.2.2.2.2 (by decide)

end Audit
